import Mathlib

/-!
# Verification of the exception rate limiter (`lib/handler-exceptions.js`)

Shallow embedding of the redis-backed exception rate limiter.  The store is
modelled as an association list from keys to entries (an integer value plus an
optional time-to-live), the redis commands used by the code (`SETEX`,
`RENAMENX`, `INCR`, `TTL`, `EXPIRE`, `GET`) by their documented semantics, and
the request handler returned by the module as a function producing the list of
observable events (store commands, log lines, responses, continuation calls)
together with the resulting store state.
-/

namespace HandlerExceptions

/-- A stored redis entry: an integer value and an optional time-to-live in
seconds (`none` means the key has no expiry). -/
structure Entry where
  val : Int
  ttl : Option Nat
deriving DecidableEq, Repr

/-- The redis keyspace, as an association list (first binding wins). -/
abbrev Store := List (String × Entry)

/-- Look a key up in the store. -/
def lookupKey : Store → String → Option Entry
  | [], _ => none
  | (k, e) :: rest, key => if k = key then some e else lookupKey rest key

/-- Remove a key from the store. -/
def delKey : Store → String → Store
  | [], _ => []
  | (k, e) :: rest, key =>
      if k = key then delKey rest key else (k, e) :: delKey rest key

/-- Set a key in the store, replacing any previous binding. -/
def setKey (s : Store) (key : String) (e : Entry) : Store :=
  (key, e) :: delKey s key

/-- Primary counter key `ratelimit:{<key>}` (`realKey` in the source). -/
def realKey (key : String) : String :=
  "ratelimit:\x7b" ++ key ++ "\x7d"

/-- Transient init key `ratelimittemp:{<key>}` (`tempKey` in the source). -/
def tempKey (key : String) : String :=
  "ratelimittemp:\x7b" ++ key ++ "\x7d"

theorem lookupKey_delKey (s : Store) (key k : String) :
    lookupKey (delKey s key) k = if k = key then none else lookupKey s k := by
  induction s with
  | nil => simp [lookupKey, delKey]
  | cons p rest ih =>
    obtain ⟨pk, pe⟩ := p
    by_cases hpk : pk = key
    · subst hpk
      by_cases hk : k = pk
      · subst hk; simp [delKey, lookupKey, ih]
      · have hk' : ¬pk = k := fun h => hk h.symm
        simp [delKey, lookupKey, ih, hk, hk']
    · by_cases hk : k = pk
      · subst hk
        have h1 : ¬k = key := hpk
        simp [delKey, lookupKey, hpk, h1, lookupKey]
      · have hk' : ¬pk = k := fun h => hk h.symm
        simp [delKey, lookupKey, hpk, ih, hk']

theorem lookupKey_setKey_self (s : Store) (key : String) (e : Entry) :
    lookupKey (setKey s key e) key = some e := by
  simp [setKey, lookupKey]

theorem lookupKey_setKey_other (s : Store) (key k : String) (e : Entry)
    (h : k ≠ key) : lookupKey (setKey s key e) k = lookupKey s k := by
  have h' : ¬key = k := fun hh => h hh.symm
  simp [setKey, lookupKey, lookupKey_delKey, h, h']

/-- The redis commands queued on the `multi()` pipeline by `incrementErrors`. -/
inductive Cmd where
  | setex (key : String) (seconds : Nat) (value : Int)
  | renamenx (src : String) (dst : String)
  | incr (key : String)
  | ttl (key : String)
deriving DecidableEq, Repr

/-- Semantics of one redis command: next store state and integer reply.
`SETEX` replies OK (modelled `1`); `RENAMENX` replies `1` on rename, `0` when
the destination exists (and replies an error, modelled `-2`, when the source is
missing — never hit by the batch, which creates the source first); `INCR`
creates an absent key at `1` with no expiry and otherwise adds `1` keeping the
expiry; `TTL` replies `-2` for a missing key, `-1` for a key without expiry,
and the remaining seconds otherwise. -/
def runCmd (s : Store) : Cmd → Store × Int
  | .setex key seconds value => (setKey s key ⟨value, some seconds⟩, 1)
  | .renamenx src dst =>
      match lookupKey s src with
      | none => (s, -2)
      | some e =>
          match lookupKey s dst with
          | some _ => (s, 0)
          | none => (setKey (delKey s src) dst e, 1)
  | .incr key =>
      match lookupKey s key with
      | none => (setKey s key ⟨1, none⟩, 1)
      | some e => (setKey s key ⟨e.val + 1, e.ttl⟩, e.val + 1)
  | .ttl key =>
      (s, match lookupKey s key with
          | none => -2
          | some e => match e.ttl with
                      | none => -1
                      | some n => (n : Int))

/-- Run a `multi().…​.exec()` batch atomically: fold the commands over the
store, collecting the replies in order. -/
def execMulti (s : Store) : List Cmd → Store × List Int
  | [] => (s, [])
  | c :: cs =>
      let (s', r) := runCmd s c
      let (s'', rs) := execMulti s' cs
      (s'', r :: rs)

/-- The four-command batch queued by `incrementErrors`:
`setex(tempKey, window, 0)`, `renamenx(tempKey, realKey)`, `incr(realKey)`,
`ttl(realKey)`. -/
def incrBatch (key : String) (window : Nat) : List Cmd :=
  [Cmd.setex (tempKey key) window 0,
   Cmd.renamenx (tempKey key) (realKey key),
   Cmd.incr (realKey key),
   Cmd.ttl (realKey key)]

/-- A transport-level redis error (`redisError` in the callbacks). -/
structure RedisError where
  name : String
  message : String
deriving DecidableEq, Repr

/-- JS errors thrown by the protected handler are opaque to the limiter; only
the boolean verdict of `errorMatcher` on them matters, so they are modelled by
an opaque carrier with decidable equality. -/
abbrev JsError := Nat

/-- Observable events of one invocation of the returned request handler, in
order: store commands issued, `console.error` lines, `opts.logger` lines, data
written to the response, the protected handler being entered, calls to the
continuation `next`, and a failure the handler reports only from a later tick
(after its synchronous frame returned). -/
inductive Event where
  | getCmd (key : String)
  | multiExec (cmds : List Cmd)
  | expireCmd (key : String) (seconds : Nat)
  | consoleError (msg : String)
  | logLine (msg : String)
  | respond (status : Nat) (body : String)
  | handlerInvoked
  | nextCall (err : Option JsError)
  | lateFailure (err : JsError)
deriving DecidableEq, Repr

/-- How one call of the protected handler behaves: it either returns from its
synchronous frame (performing `evs` — which may include passing an error to
`next` itself, or failing later from an asynchronous callback), or it throws
synchronously. -/
inductive HandlerAct where
  | completes (evs : List Event)
  | throwsSync (e : JsError)

/-- Reply number 3 of the batch, i.e. the `TTL` reply (`parseInt` of
`results[3]` in the source). -/
def ttlResultOf (s : Store) (key : String) (window : Nat) : Int :=
  (execMulti s (incrBatch key window)).2.getD 3 0

/-- Embedding of `incrementErrors(callback)`: queue the four-command batch, `exec` it, and
in the `exec` callback either log a transport error, or — when the `TTL` reply
is `-1` — issue a fire-and-forget `expire(realKey, window)` (the source
registers no callback on it, so `expireErr` is ignored: an expire failure is
neither logged nor surfaced); finally run `callback`.  Returns the events and
the resulting store (unchanged when `exec` failed, since the discarded batch
never ran). -/
def incrementErrors (key : String) (window : Nat) (s : Store)
    (execErr : Option RedisError) (expireErr : Option RedisError)
    (callbackEvents : List Event) : List Event × Store :=
  match execErr with
  | some err =>
      (Event.multiExec (incrBatch key window) ::
        (Event.consoleError
          ("redis error in incr: " ++ err.name ++ ": " ++ err.message) ::
          callbackEvents), s)
  | none =>
      let _ := expireErr
      (Event.multiExec (incrBatch key window) ::
        ((if ttlResultOf s key window = -1 then
            [Event.expireCmd (realKey key) window]
          else []) ++ callbackEvents),
       (execMulti s (incrBatch key window)).1)

/-- Embedding of `callHandler()`: invoke the protected handler inside `try`; a synchronous
throw is classified by `errorMatcher` — matched errors run `incrementErrors`
whose callback re-raises via `next(error)`, unmatched errors go straight to
`next(error)`.  A handler that returns from its synchronous frame is not
intercepted at all. -/
def callHandler (errorMatcher : JsError → Bool) (key : String) (window : Nat)
    (s : Store) (execErr expireErr : Option RedisError) (act : HandlerAct) :
    List Event × Store :=
  match act with
  | .completes evs => (Event.handlerInvoked :: evs, s)
  | .throwsSync e =>
      if errorMatcher e then
        let (incEvs, s') :=
          incrementErrors key window s execErr expireErr
            [Event.nextCall (some e)]
        (Event.handlerInvoked :: incEvs, s')
      else
        (Event.handlerInvoked :: [Event.nextCall (some e)], s)

/-- The canonicalized options the returned request handler closes over:
the error predicate, rejection body, blocking-vs-log-only switch, and the
threshold (`opts.limit()`).  `window` (`opts.window()`) and the partition key
(`opts.key(request)`) are passed at the call sites that use them. -/
structure Config where
  errorMatcher : JsError → Bool
  errorMessage : String
  shouldRateLimit : Bool
  limit : Int

/-- The current count read by the gate:
`results == null ? 0 : parseInt(results, 10)`. -/
def currentCount (s : Store) (key : String) : Int :=
  match lookupKey s (realKey key) with
  | none => 0
  | some e => e.val

/-- The request handler returned by `module.exports`: `GET` the primary key;
on a transport error log it and call `next()`; otherwise compare the count
with the limit — at or above it, log one line and, in blocking mode, answer
429 with the configured message and stop; in every other case run
`callHandler`. -/
def rateLimitedHandler (cfg : Config) (key : String) (window : Nat)
    (s : Store) (getErr execErr expireErr : Option RedisError)
    (act : HandlerAct) : List Event × Store :=
  match getErr with
  | some err =>
      (Event.getCmd (realKey key) ::
        [Event.consoleError
          ("redis error in get: " ++ err.name ++ ": " ++ err.message),
         Event.nextCall none], s)
  | none =>
      let current := currentCount s key
      if current ≥ cfg.limit then
        if cfg.shouldRateLimit then
          (Event.getCmd (realKey key) ::
            [Event.logLine
              ("Rate limit triggered due to exceptions: " ++ key ++ " = " ++
                toString current),
             Event.respond 429 cfg.errorMessage], s)
        else
          let (evs, s') :=
            callHandler cfg.errorMatcher key window s execErr expireErr act
          (Event.getCmd (realKey key) ::
            (Event.logLine
              ("Rate limit triggered due to exceptions: " ++ key ++ " = " ++
                toString current) :: evs), s')
      else
        let (evs, s') :=
          callHandler cfg.errorMatcher key window s execErr expireErr act
        (Event.getCmd (realKey key) :: evs, s')

/-- Store state after `n` requests, each carrying the same handler behaviour
`act`, served in series with no transport errors (the setting of the test
suite, which runs its requests with `async.series`). -/
def runRequests (cfg : Config) (key : String) (window : Nat)
    (act : HandlerAct) : Nat → Store
  | 0 => []
  | n + 1 =>
      (rateLimitedHandler cfg key window
        (runRequests cfg key window act n) none none none act).2

/-- Events of the `(n+1)`-th of those serial requests (0-indexed `n`). -/
def nthRequestTrace (cfg : Config) (key : String) (window : Nat)
    (act : HandlerAct) (n : Nat) : List Event :=
  (rateLimitedHandler cfg key window (runRequests cfg key window act n)
    none none none act).1

/-- Semantics of the out-of-band `expire(key, seconds)` repair command: it
only (re)sets the time-to-live of an existing key, never its value. -/
def applyExpire (s : Store) (key : String) (seconds : Nat) : Store :=
  match lookupKey s key with
  | none => s
  | some e => setKey s key ⟨e.val, some seconds⟩

/-- Is this event a `console.error` line? -/
def isConsoleError : Event → Bool
  | .consoleError _ => true
  | _ => false

/-- Is this event an `opts.logger` line? -/
def isLogLine : Event → Bool
  | .logLine _ => true
  | _ => false

/-- The events the protected handler performs itself (none when it throws
synchronously). -/
def actEvents : HandlerAct → List Event
  | .completes evs => evs
  | .throwsSync _ => []

theorem realKey_data (key : String) :
    (realKey key).data =
      "ratelimit:\x7b".data ++ (key.data ++ "\x7d".data) := by
  show (("ratelimit:\x7b" ++ key) ++ "\x7d").data = _
  rw [String.data_append, String.data_append, List.append_assoc]

theorem tempKey_data (key : String) :
    (tempKey key).data =
      "ratelimittemp:\x7b".data ++ (key.data ++ "\x7d".data) := by
  show (("ratelimittemp:\x7b" ++ key) ++ "\x7d").data = _
  rw [String.data_append, String.data_append, List.append_assoc]

theorem realKey_injective (a b : String) (h : realKey a = realKey b) :
    a = b := by
  have hd := congrArg String.data h
  rw [realKey_data, realKey_data] at hd
  exact String.ext (List.append_cancel_right (List.append_cancel_left hd))

theorem tempKey_injective (a b : String) (h : tempKey a = tempKey b) :
    a = b := by
  have hd := congrArg String.data h
  rw [tempKey_data, tempKey_data] at hd
  exact String.ext (List.append_cancel_right (List.append_cancel_left hd))

theorem realKey_ne_tempKey (a b : String) : realKey a ≠ tempKey b := by
  intro h
  have hd := congrArg String.data h
  rw [realKey_data, tempKey_data] at hd
  have h9 : ("ratelimit:\x7b".data ++ (a.data ++ "\x7d".data))[9]? =
      ("ratelimittemp:\x7b".data ++ (b.data ++ "\x7d".data))[9]? := by rw [hd]
  rw [List.getElem?_append_left (by decide),
      List.getElem?_append_left (by decide)] at h9
  exact absurd h9 (by decide)

theorem incrBatch_store (k : String) (w : Nat) (s : Store) :
    lookupKey (execMulti s (incrBatch k w)).1 (realKey k) =
      match lookupKey s (realKey k) with
      | none => some ⟨1, some w⟩
      | some e => some ⟨e.val + 1, e.ttl⟩ := by
  have hne : realKey k ≠ tempKey k := realKey_ne_tempKey k k
  cases hrk : lookupKey s (realKey k) with
  | none =>
      simp [incrBatch, execMulti, runCmd, lookupKey_setKey_self,
        lookupKey_setKey_other _ _ _ _ hne, hrk]
  | some e =>
      simp [incrBatch, execMulti, runCmd, lookupKey_setKey_self,
        lookupKey_setKey_other _ _ _ _ hne, hrk]

theorem ttlResultOf_eq (k : String) (w : Nat) (s : Store) :
    ttlResultOf s k w =
      match lookupKey s (realKey k) with
      | none => (w : Int)
      | some e => match e.ttl with
                  | none => -1
                  | some n => (n : Int) := by
  have hne : realKey k ≠ tempKey k := realKey_ne_tempKey k k
  cases hrk : lookupKey s (realKey k) with
  | none =>
      simp [ttlResultOf, incrBatch, execMulti, runCmd,
        lookupKey_setKey_self, lookupKey_setKey_other _ _ _ _ hne, hrk,
        List.getD]
  | some e =>
      simp [ttlResultOf, incrBatch, execMulti, runCmd,
        lookupKey_setKey_self, lookupKey_setKey_other _ _ _ _ hne, hrk,
        List.getD]

/-- C7: key derivation is the pure map sending a partition key `k` to the
primary key `ratelimit:{k}` and the transient key `ratelimittemp:{k}`; for
distinct partition keys the primary keys differ and the transient keys differ,
and no primary key of any partition ever coincides with a transient key of
any partition, so no partition key value can forge the keys of another
partition. -/
theorem keys_collision_free (a b : String) (hab : a ≠ b) :
    realKey a = "ratelimit:\x7b" ++ a ++ "\x7d" ∧
    tempKey a = "ratelimittemp:\x7b" ++ a ++ "\x7d" ∧
    realKey a ≠ realKey b ∧
    tempKey a ≠ tempKey b ∧
    ∀ c d : String, realKey c ≠ tempKey d := by
  refine ⟨rfl, rfl, ?_, ?_, fun c d => realKey_ne_tempKey c d⟩
  · exact fun h => hab (realKey_injective a b h)
  · exact fun h => hab (tempKey_injective a b h)

theorem keys_collision_free_witness :
    ("a" : String) ≠ "b" ∧
    (realKey "a" = "ratelimit:\x7b" ++ "a" ++ "\x7d" ∧
     tempKey "a" = "ratelimittemp:\x7b" ++ "a" ++ "\x7d" ∧
     realKey "a" ≠ realKey "b" ∧
     tempKey "a" ≠ tempKey "b" ∧
     ∀ c d : String, realKey c ≠ tempKey d) :=
  ⟨by decide, keys_collision_free "a" "b" (by decide)⟩

/-- C1: one invocation of `incrementErrors`, with no transport error, issues
as its first event one indivisible atomic batch of exactly the four commands
`setex(tempKey, window, 0)`, `renamenx(tempKey, realKey)`, `incr(realKey)`,
`ttl(realKey)` in this order, and afterwards the primary key exists holding
the previous count (0 when absent) plus one — hence, counts being
non-negative, a value of at least 1: the increment of every caller is
recorded. -/
theorem incrementErrors_atomic_batch (key : String) (window : Nat) (s : Store)
    (expireErr : Option RedisError) (cb : List Event)
    (h : ∀ e : Entry, lookupKey s (realKey key) = some e → 0 ≤ e.val) :
    (incrementErrors key window s none expireErr cb).1.head? =
      some (Event.multiExec
        [Cmd.setex (tempKey key) window 0,
         Cmd.renamenx (tempKey key) (realKey key),
         Cmd.incr (realKey key),
         Cmd.ttl (realKey key)]) ∧
    ∃ e : Entry,
      lookupKey (incrementErrors key window s none expireErr cb).2
          (realKey key) = some e ∧
      e.val = (match lookupKey s (realKey key) with
               | none => 0
               | some e0 => e0.val) + 1 ∧
      1 ≤ e.val := by
  constructor
  · rfl
  · have hs : (incrementErrors key window s none expireErr cb).2 =
        (execMulti s (incrBatch key window)).1 := rfl
    rw [hs, incrBatch_store]
    cases hrk : lookupKey s (realKey key) with
    | none => exact ⟨⟨1, some window⟩, rfl, rfl, by norm_num⟩
    | some e0 =>
        refine ⟨⟨e0.val + 1, e0.ttl⟩, rfl, rfl, ?_⟩
        have := h e0 hrk
        show 1 ≤ e0.val + 1
        omega

theorem incrementErrors_atomic_batch_witness :
    (∀ e : Entry, lookupKey ([] : Store) (realKey "a") = some e → 0 ≤ e.val) ∧
    ((incrementErrors "a" 60 [] none none []).1.head? =
      some (Event.multiExec
        [Cmd.setex (tempKey "a") 60 0,
         Cmd.renamenx (tempKey "a") (realKey "a"),
         Cmd.incr (realKey "a"),
         Cmd.ttl (realKey "a")]) ∧
     ∃ e : Entry,
       lookupKey (incrementErrors "a" 60 [] none none []).2
           (realKey "a") = some e ∧
       e.val = (match lookupKey ([] : Store) (realKey "a") with
                | none => 0
                | some e0 => e0.val) + 1 ∧
       1 ≤ e.val) :=
  ⟨fun e hc => by simp [lookupKey] at hc,
   incrementErrors_atomic_batch "a" 60 [] none []
     (fun e hc => by simp [lookupKey] at hc)⟩

/-- C4: when the `GET` on the read path fails with a transport error, the
error is logged to `console.error`, the continuation `next()` is invoked with
no error argument, no 429 response is sent, and no exception is surfaced (no
`next(e)` with an error) — the read path is fail-open. -/
theorem gate_read_fail_open (cfg : Config) (key : String) (window : Nat)
    (s : Store) (err : RedisError) (execErr expireErr : Option RedisError)
    (act : HandlerAct) :
    rateLimitedHandler cfg key window s (some err) execErr expireErr act =
      ([Event.getCmd (realKey key),
        Event.consoleError
          ("redis error in get: " ++ err.name ++ ": " ++ err.message),
        Event.nextCall none], s) ∧
    Event.nextCall none ∈
      (rateLimitedHandler cfg key window s (some err) execErr expireErr
        act).1 ∧
    (∀ b : String, Event.respond 429 b ∉
      (rateLimitedHandler cfg key window s (some err) execErr expireErr
        act).1) ∧
    (∀ e : JsError, Event.nextCall (some e) ∉
      (rateLimitedHandler cfg key window s (some err) execErr expireErr
        act).1) := by
  refine ⟨rfl, ?_, ?_, ?_⟩
  · simp [rateLimitedHandler]
  · intro b; simp [rateLimitedHandler]
  · intro e; simp [rateLimitedHandler]

/-- The events `incrementErrors` emits before running its callback. -/
def incLeading (key : String) (window : Nat) (s : Store)
    (execErr : Option RedisError) : List Event :=
  Event.multiExec (incrBatch key window) ::
    match execErr with
    | some err =>
        [Event.consoleError
          ("redis error in incr: " ++ err.name ++ ": " ++ err.message)]
    | none =>
        if ttlResultOf s key window = -1 then
          [Event.expireCmd (realKey key) window]
        else []

theorem incrementErrors_events (key : String) (window : Nat) (s : Store)
    (execErr expireErr : Option RedisError) (cb : List Event) :
    (incrementErrors key window s execErr expireErr cb).1 =
      incLeading key window s execErr ++ cb := by
  cases execErr with
  | none => simp [incrementErrors, incLeading]
  | some err => simp [incrementErrors, incLeading]

theorem incLeading_no_nextCall (key : String) (window : Nat) (s : Store)
    (execErr : Option RedisError) (x : Option JsError) :
    Event.nextCall x ∉ incLeading key window s execErr := by
  cases execErr with
  | none =>
      simp only [incLeading]
      by_cases h : ttlResultOf s key window = -1 <;> simp [h]
  | some err => simp [incLeading]

theorem rateLimitedHandler_allowed (cfg : Config) (key : String)
    (window : Nat) (s : Store) (execErr expireErr : Option RedisError)
    (act : HandlerAct) (hc : ¬currentCount s key ≥ cfg.limit) :
    rateLimitedHandler cfg key window s none execErr expireErr act =
      (Event.getCmd (realKey key) ::
        (callHandler cfg.errorMatcher key window s execErr expireErr act).1,
       (callHandler cfg.errorMatcher key window s execErr expireErr act).2) := by
  simp [rateLimitedHandler, hc]

theorem rateLimitedHandler_blocked (cfg : Config) (key : String)
    (window : Nat) (s : Store) (execErr expireErr : Option RedisError)
    (act : HandlerAct) (hc : currentCount s key ≥ cfg.limit)
    (hb : cfg.shouldRateLimit = true) :
    rateLimitedHandler cfg key window s none execErr expireErr act =
      ([Event.getCmd (realKey key),
        Event.logLine
          ("Rate limit triggered due to exceptions: " ++ key ++ " = " ++
            toString (currentCount s key)),
        Event.respond 429 cfg.errorMessage], s) := by
  simp [rateLimitedHandler, hc, hb]

theorem rateLimitedHandler_logOnly (cfg : Config) (key : String)
    (window : Nat) (s : Store) (execErr expireErr : Option RedisError)
    (act : HandlerAct) (hc : currentCount s key ≥ cfg.limit)
    (hb : cfg.shouldRateLimit = false) :
    rateLimitedHandler cfg key window s none execErr expireErr act =
      (Event.getCmd (realKey key) ::
        (Event.logLine
          ("Rate limit triggered due to exceptions: " ++ key ++ " = " ++
            toString (currentCount s key)) ::
          (callHandler cfg.errorMatcher key window s execErr expireErr
            act).1),
       (callHandler cfg.errorMatcher key window s execErr expireErr act).2) := by
  simp [rateLimitedHandler, hc, hb]

/-- C10: a handler that returns from its synchronous frame — even when it
reports a failure asynchronously, by passing an error to the continuation
itself or by throwing from a later callback — bypasses the `catch` of the wrapper
entirely: the wrapper adds no events of its own beyond entering the handler,
issues no atomic increment batch, and leaves the store (the count) unchanged. -/
theorem async_failures_bypass (matcher : JsError → Bool) (key : String)
    (window : Nat) (s : Store) (execErr expireErr : Option RedisError)
    (evs : List Event) (h : ∀ cmds : List Cmd, Event.multiExec cmds ∉ evs) :
    callHandler matcher key window s execErr expireErr (.completes evs) =
      (Event.handlerInvoked :: evs, s) ∧
    ∀ cmds : List Cmd, Event.multiExec cmds ∉
      (callHandler matcher key window s execErr expireErr
        (.completes evs)).1 := by
  refine ⟨rfl, fun cmds hmem => ?_⟩
  simp only [callHandler, List.mem_cons] at hmem
  rcases hmem with h1 | h2
  · exact Event.noConfusion h1
  · exact h cmds h2

theorem async_failures_bypass_witness :
    (∀ cmds : List Cmd, Event.multiExec cmds ∉
      [Event.nextCall (some 7), Event.lateFailure 3]) ∧
    (callHandler (fun _ => true) "a" 60 [] none none
        (.completes [Event.nextCall (some 7), Event.lateFailure 3]) =
      (Event.handlerInvoked ::
        [Event.nextCall (some 7), Event.lateFailure 3], []) ∧
     ∀ cmds : List Cmd, Event.multiExec cmds ∉
       (callHandler (fun _ => true) "a" 60 [] none none
         (.completes [Event.nextCall (some 7), Event.lateFailure 3])).1) :=
  ⟨fun cmds => by simp,
   async_failures_bypass (fun _ => true) "a" 60 [] none none
     [Event.nextCall (some 7), Event.lateFailure 3] (fun cmds => by simp)⟩

/-- C3: when the protected handler throws `e` and the error predicate matches
it, the increment runs to completion strictly before `e` is re-raised: the
atomic batch (and, on a store-level failure, its logged-and-swallowed error
line) occurs strictly before the final event, which is `next(e)`, and `e` is
propagated to the failure channel exactly once. -/
theorem count_before_propagate (matcher : JsError → Bool) (key : String)
    (window : Nat) (s : Store) (execErr expireErr : Option RedisError)
    (e : JsError) (hm : matcher e = true) :
    (callHandler matcher key window s execErr expireErr
        (.throwsSync e)).1.getLast? = some (Event.nextCall (some e)) ∧
    (callHandler matcher key window s execErr expireErr
        (.throwsSync e)).1.count (Event.nextCall (some e)) = 1 ∧
    Event.multiExec (incrBatch key window) ∈
      (callHandler matcher key window s execErr expireErr
        (.throwsSync e)).1.dropLast ∧
    (∀ err : RedisError, execErr = some err →
      Event.consoleError
          ("redis error in incr: " ++ err.name ++ ": " ++ err.message) ∈
        (callHandler matcher key window s execErr expireErr
          (.throwsSync e)).1.dropLast) ∧
    (∀ x : Option JsError, x ≠ some e →
      Event.nextCall x ∉
        (callHandler matcher key window s execErr expireErr
          (.throwsSync e)).1) := by
  have htr : (callHandler matcher key window s execErr expireErr
      (.throwsSync e)).1 =
      (Event.handlerInvoked :: incLeading key window s execErr) ++
        [Event.nextCall (some e)] := by
    simp [callHandler, hm, incrementErrors_events]
  rw [htr]
  refine ⟨?_, ?_, ?_, ?_, ?_⟩
  · rw [List.getLast?_concat]
  · rw [List.count_append]
    have h0 : (Event.handlerInvoked ::
        incLeading key window s execErr).count (Event.nextCall (some e)) = 0 := by
      rw [List.count_eq_zero]
      intro hmem
      rcases List.mem_cons.mp hmem with h1 | h2
      · exact Event.noConfusion h1
      · exact incLeading_no_nextCall key window s execErr (some e) h2
    rw [h0]
    simp
  · rw [List.dropLast_concat]
    simp [incLeading]
  · intro err herr
    subst herr
    rw [List.dropLast_concat]
    simp [incLeading]
  · intro x hx hmem
    rcases List.mem_append.mp hmem with h1 | h2
    · rcases List.mem_cons.mp h1 with h3 | h4
      · exact Event.noConfusion h3
      · exact incLeading_no_nextCall key window s execErr x h4
    · simp at h2
      exact hx (by rw [h2])

theorem count_before_propagate_witness :
    ((fun _ : JsError => true) 5 = true) ∧
    ((callHandler (fun _ => true) "a" 60 [] none none
        (.throwsSync 5)).1.getLast? = some (Event.nextCall (some 5)) ∧
     (callHandler (fun _ => true) "a" 60 [] none none
        (.throwsSync 5)).1.count (Event.nextCall (some 5)) = 1 ∧
     Event.multiExec (incrBatch "a" 60) ∈
       (callHandler (fun _ => true) "a" 60 [] none none
         (.throwsSync 5)).1.dropLast ∧
     (∀ err : RedisError, (none : Option RedisError) = some err →
       Event.consoleError
           ("redis error in incr: " ++ err.name ++ ": " ++ err.message) ∈
         (callHandler (fun _ => true) "a" 60 [] none none
           (.throwsSync 5)).1.dropLast) ∧
     (∀ x : Option JsError, x ≠ some 5 →
       Event.nextCall x ∉
         (callHandler (fun _ => true) "a" 60 [] none none
           (.throwsSync 5)).1)) :=
  ⟨rfl, count_before_propagate (fun _ => true) "a" 60 [] none none 5 rfl⟩

theorem incLeading_no_respond (key : String) (window : Nat) (s : Store)
    (execErr : Option RedisError) (st : Nat) (b : String) :
    Event.respond st b ∉ incLeading key window s execErr := by
  cases execErr with
  | none =>
      simp only [incLeading]
      by_cases h : ttlResultOf s key window = -1 <;> simp [h]
  | some err => simp [incLeading]

theorem incLeading_no_logLine (key : String) (window : Nat) (s : Store)
    (execErr : Option RedisError) (m : String) :
    Event.logLine m ∉ incLeading key window s execErr := by
  cases execErr with
  | none =>
      simp only [incLeading]
      by_cases h : ttlResultOf s key window = -1 <;> simp [h]
  | some err => simp [incLeading]

theorem callHandler_matched_store (matcher : JsError → Bool) (key : String)
    (window : Nat) (s : Store) (expireErr : Option RedisError) (e : JsError)
    (hm : matcher e = true) :
    (callHandler matcher key window s none expireErr (.throwsSync e)).2 =
      (execMulti s (incrBatch key window)).1 := by
  simp [callHandler, hm, incrementErrors]

theorem callHandler_throwsSync_events (matcher : JsError → Bool)
    (key : String) (window : Nat) (s : Store)
    (execErr expireErr : Option RedisError) (e : JsError) :
    (callHandler matcher key window s execErr expireErr (.throwsSync e)).1 =
      Event.handlerInvoked ::
        (if matcher e then
          incLeading key window s execErr ++ [Event.nextCall (some e)]
         else [Event.nextCall (some e)]) := by
  by_cases hm : matcher e <;>
    simp [callHandler, hm, incrementErrors_events]

/-- Store after `n` serial unmatched-error requests: no command was ever
issued, the store stays empty. -/
theorem runRequests_unmatched (cfg : Config) (key : String) (window : Nat)
    (e : JsError) (hm : cfg.errorMatcher e = false) (hL : 0 < cfg.limit) :
    ∀ n : Nat, runRequests cfg key window (.throwsSync e) n = [] := by
  intro n
  induction n with
  | zero => rfl
  | succ n ih =>
      have hc : ¬currentCount ([] : Store) key ≥ cfg.limit := by
        have h0 : currentCount ([] : Store) key = 0 := rfl
        rw [h0]; omega
      show (rateLimitedHandler cfg key window
        (runRequests cfg key window (.throwsSync e) n) none none none
        (.throwsSync e)).2 = []
      rw [ih, rateLimitedHandler_allowed cfg key window [] none none
        (.throwsSync e) hc]
      simp [callHandler, hm]

/-- C6: an error the predicate rejects is re-raised unchanged via `next(e)`
with no store command issued and the store untouched; and a serial stream of
requests whose errors never match leaves the counter absent forever, so with a
positive limit none of them is ever blocked, regardless of volume. -/
theorem unmatched_error_passthrough (cfg : Config) (key : String)
    (window : Nat) (s : Store) (execErr expireErr : Option RedisError)
    (e : JsError) (hm : cfg.errorMatcher e = false) (hL : 0 < cfg.limit) :
    callHandler cfg.errorMatcher key window s execErr expireErr
        (.throwsSync e) =
      ([Event.handlerInvoked, Event.nextCall (some e)], s) ∧
    (∀ n : Nat, runRequests cfg key window (.throwsSync e) n = []) ∧
    (∀ n : Nat,
      Event.handlerInvoked ∈
        nthRequestTrace cfg key window (.throwsSync e) n ∧
      ∀ b : String, Event.respond 429 b ∉
        nthRequestTrace cfg key window (.throwsSync e) n) := by
  have hrun := runRequests_unmatched cfg key window e hm hL
  have hc : ¬currentCount ([] : Store) key ≥ cfg.limit := by
    have h0 : currentCount ([] : Store) key = 0 := rfl
    rw [h0]; omega
  refine ⟨by simp [callHandler, hm], hrun, fun n => ?_⟩
  have htr : nthRequestTrace cfg key window (.throwsSync e) n =
      [Event.getCmd (realKey key), Event.handlerInvoked,
       Event.nextCall (some e)] := by
    show (rateLimitedHandler cfg key window
      (runRequests cfg key window (.throwsSync e) n) none none none
      (.throwsSync e)).1 = _
    rw [hrun n, rateLimitedHandler_allowed cfg key window [] none none
      (.throwsSync e) hc]
    simp [callHandler, hm]
  rw [htr]
  exact ⟨by simp, fun b => by simp⟩

theorem unmatched_error_passthrough_witness :
    ((fun _ : JsError => false) 4 = false ∧
      (0 : Int) < (⟨fun _ => false, "Too Many Errors", true, 2⟩ :
        Config).limit) ∧
    (callHandler (fun _ => false) "a" 60 [(realKey "a", ⟨1, some 60⟩)]
        none none (.throwsSync 4) =
      ([Event.handlerInvoked, Event.nextCall (some 4)],
        [(realKey "a", ⟨1, some 60⟩)]) ∧
     (∀ n : Nat, runRequests ⟨fun _ => false, "Too Many Errors", true, 2⟩
        "a" 60 (.throwsSync 4) n = []) ∧
     (∀ n : Nat,
       Event.handlerInvoked ∈
         nthRequestTrace ⟨fun _ => false, "Too Many Errors", true, 2⟩
           "a" 60 (.throwsSync 4) n ∧
       ∀ b : String, Event.respond 429 b ∉
         nthRequestTrace ⟨fun _ => false, "Too Many Errors", true, 2⟩
           "a" 60 (.throwsSync 4) n)) :=
  ⟨⟨rfl, by norm_num⟩,
   unmatched_error_passthrough ⟨fun _ => false, "Too Many Errors", true, 2⟩
     "a" 60 [(realKey "a", ⟨1, some 60⟩)] none none 4 rfl (by norm_num)⟩

/-- After `n ≤ L` serial matched-error requests from a fresh store, the
primary key holds exactly `n` (absent for `n = 0`), with the window as its
expiry. -/
theorem runRequests_matched_count (cfg : Config) (key : String)
    (window : Nat)
    (hm : cfg.errorMatcher 0 = true) (L : Nat) (hL : cfg.limit = (L : Int)) :
    ∀ n : Nat, n ≤ L →
      lookupKey (runRequests cfg key window (.throwsSync 0) n) (realKey key) =
        (if n = 0 then none else some ⟨(n : Int), some window⟩) := by
  intro n
  induction n with
  | zero => intro _; rfl
  | succ n ih =>
      intro hn1
      have hn : n ≤ L := Nat.le_of_succ_le hn1
      have hlk := ih hn
      have hcur : currentCount (runRequests cfg key window (.throwsSync 0) n)
          key = (n : Int) := by
        rw [currentCount, hlk]
        by_cases h0 : n = 0
        · simp [h0]
        · simp [h0]
      have hlt : ¬currentCount (runRequests cfg key window (.throwsSync 0) n)
          key ≥ cfg.limit := by
        rw [hcur, hL]
        have hnL : n < L := hn1
        simp only [not_le]
        exact_mod_cast hnL
      show lookupKey (rateLimitedHandler cfg key window
        (runRequests cfg key window (.throwsSync 0) n) none none none
        (.throwsSync 0)).2 (realKey key) = _
      rw [rateLimitedHandler_allowed cfg key window _ none none
        (.throwsSync 0) hlt,
        callHandler_matched_store cfg.errorMatcher key window _ none 0 hm,
        incrBatch_store, hlk]
      by_cases h0 : n = 0
      · subst h0; simp
      · simp only [h0, if_false, Nat.succ_ne_zero, if_neg]
        have : ((n + 1 : Nat) : Int) = (n : Int) + 1 := by push_cast; ring
        simp [this]

/-- C2: with a successful counter read, the gate blocks exactly when the
stored count (0 when the key is absent) is at least the limit; in blocking
mode a blocked request gets the 429 response with the configured message and
the protected handler is never entered; and over a fresh window the first `L`
serial qualifying (matched-error) events are allowed while the `(L+1)`-th is
rejected. -/
theorem gate_blocks_iff_limit (cfg : Config) (key : String) (window : Nat)
    (s : Store) (execErr expireErr : Option RedisError) (e : JsError)
    (hb : cfg.shouldRateLimit = true) (hm : cfg.errorMatcher 0 = true)
    (L : Nat) (hL : cfg.limit = (L : Int)) :
    ((Event.respond 429 cfg.errorMessage ∈
        (rateLimitedHandler cfg key window s none execErr expireErr
          (.throwsSync e)).1 ∧
      Event.handlerInvoked ∉
        (rateLimitedHandler cfg key window s none execErr expireErr
          (.throwsSync e)).1) ↔
      currentCount s key ≥ cfg.limit) ∧
    (∀ n : Nat, n < L →
      Event.handlerInvoked ∈
        nthRequestTrace cfg key window (.throwsSync 0) n ∧
      Event.respond 429 cfg.errorMessage ∉
        nthRequestTrace cfg key window (.throwsSync 0) n) ∧
    (Event.respond 429 cfg.errorMessage ∈
      nthRequestTrace cfg key window (.throwsSync 0) L ∧
     Event.handlerInvoked ∉
      nthRequestTrace cfg key window (.throwsSync 0) L) := by
  have hinv := runRequests_matched_count cfg key window hm L hL
  refine ⟨?_, ?_, ?_⟩
  · by_cases hc : currentCount s key ≥ cfg.limit
    · rw [rateLimitedHandler_blocked cfg key window s execErr expireErr
        (.throwsSync e) hc hb]
      simp [hc]
    · rw [rateLimitedHandler_allowed cfg key window s execErr expireErr
        (.throwsSync e) hc,
        callHandler_throwsSync_events]
      simp only [iff_iff_implies_and_implies]
      constructor
      · intro hmem
        exact absurd (by simp : Event.handlerInvoked ∈
          Event.getCmd (realKey key) :: Event.handlerInvoked :: _)
          hmem.2
      · intro hcc; exact absurd hcc hc
  · intro n hn
    have hcur : currentCount (runRequests cfg key window (.throwsSync 0) n)
        key = (n : Int) := by
      rw [currentCount, hinv n (Nat.le_of_lt hn)]
      by_cases h0 : n = 0
      · simp [h0]
      · simp [h0]
    have hlt : ¬currentCount (runRequests cfg key window (.throwsSync 0) n)
        key ≥ cfg.limit := by
      rw [hcur, hL]
      simp only [not_le]
      exact_mod_cast hn
    have htr : nthRequestTrace cfg key window (.throwsSync 0) n =
        Event.getCmd (realKey key) ::
          (Event.handlerInvoked ::
            (incLeading key window
              (runRequests cfg key window (.throwsSync 0) n) none ++
             [Event.nextCall (some 0)])) := by
      show (rateLimitedHandler cfg key window
        (runRequests cfg key window (.throwsSync 0) n) none none none
        (.throwsSync 0)).1 = _
      rw [rateLimitedHandler_allowed cfg key window _ none none
        (.throwsSync 0) hlt, callHandler_throwsSync_events]
      simp [hm]
    rw [htr]
    refine ⟨by simp, ?_⟩
    intro hmem
    rcases List.mem_cons.mp hmem with h1 | h2
    · exact Event.noConfusion h1
    · rcases List.mem_cons.mp h2 with h3 | h4
      · exact Event.noConfusion h3
      · rcases List.mem_append.mp h4 with h5 | h6
        · exact incLeading_no_respond key window _ none 429 cfg.errorMessage h5
        · simp at h6
  · have hcur : currentCount (runRequests cfg key window (.throwsSync 0) L)
        key = (L : Int) := by
      rw [currentCount, hinv L (Nat.le_refl L)]
      by_cases h0 : L = 0
      · simp [h0]
      · simp [h0]
    have hge : currentCount (runRequests cfg key window (.throwsSync 0) L)
        key ≥ cfg.limit := by
      rw [hcur, hL]
    have htr : nthRequestTrace cfg key window (.throwsSync 0) L =
        [Event.getCmd (realKey key),
         Event.logLine
           ("Rate limit triggered due to exceptions: " ++ key ++ " = " ++
             toString (currentCount
               (runRequests cfg key window (.throwsSync 0) L) key)),
         Event.respond 429 cfg.errorMessage] := by
      show (rateLimitedHandler cfg key window
        (runRequests cfg key window (.throwsSync 0) L) none none none
        (.throwsSync 0)).1 = _
      rw [rateLimitedHandler_blocked cfg key window _ none none
        (.throwsSync 0) hge hb]
    rw [htr]
    exact ⟨by simp, by simp⟩

theorem gate_blocks_iff_limit_witness :
    ((⟨fun _ => true, "Too Many Errors", true, 2⟩ :
        Config).shouldRateLimit = true ∧
      (⟨fun _ => true, "Too Many Errors", true, 2⟩ :
        Config).errorMatcher 0 = true ∧
      (⟨fun _ => true, "Too Many Errors", true, 2⟩ :
        Config).limit = ((2 : Nat) : Int)) ∧
    (((Event.respond 429 (⟨fun _ => true, "Too Many Errors", true, 2⟩ :
          Config).errorMessage ∈
        (rateLimitedHandler ⟨fun _ => true, "Too Many Errors", true, 2⟩
          "a" 60 [] none none none (.throwsSync 0)).1 ∧
       Event.handlerInvoked ∉
        (rateLimitedHandler ⟨fun _ => true, "Too Many Errors", true, 2⟩
          "a" 60 [] none none none (.throwsSync 0)).1) ↔
       currentCount [] "a" ≥ (⟨fun _ => true, "Too Many Errors", true, 2⟩ :
         Config).limit) ∧
     (∀ n : Nat, n < 2 →
       Event.handlerInvoked ∈
         nthRequestTrace ⟨fun _ => true, "Too Many Errors", true, 2⟩
           "a" 60 (.throwsSync 0) n ∧
       Event.respond 429 (⟨fun _ => true, "Too Many Errors", true, 2⟩ :
           Config).errorMessage ∉
         nthRequestTrace ⟨fun _ => true, "Too Many Errors", true, 2⟩
           "a" 60 (.throwsSync 0) n) ∧
     (Event.respond 429 (⟨fun _ => true, "Too Many Errors", true, 2⟩ :
          Config).errorMessage ∈
        nthRequestTrace ⟨fun _ => true, "Too Many Errors", true, 2⟩
          "a" 60 (.throwsSync 0) 2 ∧
      Event.handlerInvoked ∉
        nthRequestTrace ⟨fun _ => true, "Too Many Errors", true, 2⟩
          "a" 60 (.throwsSync 0) 2)) :=
  ⟨⟨rfl, rfl, by norm_num⟩,
   gate_blocks_iff_limit ⟨fun _ => true, "Too Many Errors", true, 2⟩
     "a" 60 [] none none 0 rfl rfl 2 (by norm_num)⟩

theorem filter_isLogLine_eq_nil (l : List Event)
    (h : ∀ m : String, Event.logLine m ∉ l) : l.filter isLogLine = [] := by
  induction l with
  | nil => rfl
  | cons x rest ih =>
      have hrest : ∀ m : String, Event.logLine m ∉ rest := fun m hmem =>
        h m (List.mem_cons_of_mem _ hmem)
      have hx : isLogLine x = false := by
        cases x with
        | logLine m => exact absurd (List.mem_cons_self _ _) (h m)
        | getCmd k => rfl
        | multiExec c => rfl
        | expireCmd k sec => rfl
        | consoleError m => rfl
        | respond a b => rfl
        | handlerInvoked => rfl
        | nextCall e => rfl
        | lateFailure e => rfl
      rw [List.filter_cons, hx]
      simp [ih hrest]

theorem callHandler_no_logLine (matcher : JsError → Bool) (key : String)
    (window : Nat) (s : Store) (execErr expireErr : Option RedisError)
    (act : HandlerAct)
    (hlog : ∀ m : String, Event.logLine m ∉ actEvents act) :
    ∀ m : String, Event.logLine m ∉
      (callHandler matcher key window s execErr expireErr act).1 := by
  intro m hmem
  cases act with
  | completes evs =>
      rcases List.mem_cons.mp hmem with h1 | h2
      · exact Event.noConfusion h1
      · exact hlog m h2
  | throwsSync e =>
      rw [callHandler_throwsSync_events] at hmem
      rcases List.mem_cons.mp hmem with h1 | h2
      · exact Event.noConfusion h1
      · by_cases hme : matcher e
        · rw [if_pos hme] at h2
          rcases List.mem_append.mp h2 with h3 | h4
          · exact incLeading_no_logLine key window s execErr m h3
          · simp at h4
        · rw [if_neg hme] at h2
          simp at h2

theorem callHandler_no_respond (matcher : JsError → Bool) (key : String)
    (window : Nat) (s : Store) (execErr expireErr : Option RedisError)
    (act : HandlerAct)
    (hresp : ∀ (st : Nat) (b : String), Event.respond st b ∉ actEvents act) :
    ∀ (st : Nat) (b : String), Event.respond st b ∉
      (callHandler matcher key window s execErr expireErr act).1 := by
  intro st b hmem
  cases act with
  | completes evs =>
      rcases List.mem_cons.mp hmem with h1 | h2
      · exact Event.noConfusion h1
      · exact hresp st b h2
  | throwsSync e =>
      rw [callHandler_throwsSync_events] at hmem
      rcases List.mem_cons.mp hmem with h1 | h2
      · exact Event.noConfusion h1
      · by_cases hme : matcher e
        · rw [if_pos hme] at h2
          rcases List.mem_append.mp h2 with h3 | h4
          · exact incLeading_no_respond key window s execErr st b h3
          · simp at h4
        · rw [if_neg hme] at h2
          simp at h2

/-- C8: with blocking mode disabled (`shouldRateLimit = false`), a request
whose stored count is at or above the limit is still let through — the
protected handler is entered and no 429 (indeed no response at all) is emitted
by the wrapper — and exactly one logger line is recorded for the exceeding
event. -/
theorem log_only_mode_allows (cfg : Config) (key : String) (window : Nat)
    (s : Store) (execErr expireErr : Option RedisError) (act : HandlerAct)
    (hb : cfg.shouldRateLimit = false)
    (hc : currentCount s key ≥ cfg.limit)
    (hlog : ∀ m : String, Event.logLine m ∉ actEvents act)
    (hresp : ∀ (st : Nat) (b : String), Event.respond st b ∉ actEvents act) :
    Event.handlerInvoked ∈
      (rateLimitedHandler cfg key window s none execErr expireErr act).1 ∧
    (∀ (st : Nat) (b : String), Event.respond st b ∉
      (rateLimitedHandler cfg key window s none execErr expireErr act).1) ∧
    ((rateLimitedHandler cfg key window s none execErr expireErr
        act).1.filter isLogLine).length = 1 := by
  rw [rateLimitedHandler_logOnly cfg key window s execErr expireErr act hc hb]
  refine ⟨?_, ?_, ?_⟩
  · cases act with
    | completes evs => simp [callHandler]
    | throwsSync e =>
        rw [callHandler_throwsSync_events]
        simp
  · intro st b hmem
    rcases List.mem_cons.mp hmem with h1 | h2
    · exact Event.noConfusion h1
    · rcases List.mem_cons.mp h2 with h3 | h4
      · exact Event.noConfusion h3
      · exact callHandler_no_respond cfg.errorMatcher key window s execErr
          expireErr act hresp st b h4
  · rw [List.filter_cons, List.filter_cons]
    have h1 : isLogLine (Event.getCmd (realKey key)) = false := rfl
    have h2 : isLogLine (Event.logLine
        ("Rate limit triggered due to exceptions: " ++ key ++ " = " ++
          toString (currentCount s key))) = true := rfl
    rw [h1, h2,
      filter_isLogLine_eq_nil _
        (callHandler_no_logLine cfg.errorMatcher key window s execErr
          expireErr act hlog)]
    simp

theorem log_only_mode_allows_witness :
    ((⟨fun _ => true, "Too Many Errors", false, 1⟩ :
        Config).shouldRateLimit = false ∧
      currentCount [(realKey "a", ⟨5, some 60⟩)] "a" ≥
        (⟨fun _ => true, "Too Many Errors", false, 1⟩ : Config).limit ∧
      (∀ m : String, Event.logLine m ∉ actEvents (.throwsSync 0)) ∧
      (∀ (st : Nat) (b : String),
        Event.respond st b ∉ actEvents (.throwsSync 0))) ∧
    (Event.handlerInvoked ∈
      (rateLimitedHandler ⟨fun _ => true, "Too Many Errors", false, 1⟩
        "a" 60 [(realKey "a", ⟨5, some 60⟩)] none none none
        (.throwsSync 0)).1 ∧
    (∀ (st : Nat) (b : String), Event.respond st b ∉
      (rateLimitedHandler ⟨fun _ => true, "Too Many Errors", false, 1⟩
        "a" 60 [(realKey "a", ⟨5, some 60⟩)] none none none
        (.throwsSync 0)).1) ∧
    ((rateLimitedHandler ⟨fun _ => true, "Too Many Errors", false, 1⟩
        "a" 60 [(realKey "a", ⟨5, some 60⟩)] none none none
        (.throwsSync 0)).1.filter isLogLine).length = 1) :=
  ⟨⟨rfl, by decide, fun m => by simp [actEvents],
      fun st b => by simp [actEvents]⟩,
   log_only_mode_allows ⟨fun _ => true, "Too Many Errors", false, 1⟩
     "a" 60 [(realKey "a", ⟨5, some 60⟩)] none none (.throwsSync 0)
     rfl (by decide) (fun m => by simp [actEvents])
     (fun st b => by simp [actEvents])⟩

/-- C5 (amended): after the atomic batch completes without a store error, the
separate out-of-band `expire(realKey, window)` repair command is issued if and
only if the TTL read in the fourth step of the batch is the no-expiry sentinel
`-1`, and never when the batch failed; the repair is outside the atomic batch
(the batch is the single `multiExec` head event); the source registers no
callback on it, so a failure of it is neither logged nor surfaced to the
caller (the trace cannot depend on the expire outcome, and carries no
`console.error`); and expiry repair never changes a recorded count. -/
theorem expire_repair_out_of_band (key : String) (window : Nat) (s : Store)
    (expireErr expireErr' : Option RedisError) (e : JsError) :
    (Event.expireCmd (realKey key) window ∈
        (incrementErrors key window s none expireErr
          [Event.nextCall (some e)]).1 ↔
      ttlResultOf s key window = -1) ∧
    (∀ err : RedisError, Event.expireCmd (realKey key) window ∉
        (incrementErrors key window s (some err) expireErr
          [Event.nextCall (some e)]).1) ∧
    (incrementErrors key window s none expireErr
        [Event.nextCall (some e)]).1.head? =
      some (Event.multiExec (incrBatch key window)) ∧
    (∀ m : String, Event.consoleError m ∉
      (incrementErrors key window s none expireErr
        [Event.nextCall (some e)]).1) ∧
    incrementErrors key window s none expireErr [Event.nextCall (some e)] =
      incrementErrors key window s none expireErr' [Event.nextCall (some e)] ∧
    ∀ st : Store,
      (lookupKey (applyExpire st (realKey key) window) (realKey key)).map
          Entry.val =
        (lookupKey st (realKey key)).map Entry.val := by
  refine ⟨?_, ?_, rfl, ?_, rfl, ?_⟩
  · rw [incrementErrors_events]
    by_cases h : ttlResultOf s key window = -1 <;>
      simp [incLeading, h]
  · intro err
    rw [incrementErrors_events]
    simp [incLeading]
  · intro m
    rw [incrementErrors_events]
    by_cases h : ttlResultOf s key window = -1 <;>
      simp [incLeading, h]
  · intro st
    cases hst : lookupKey st (realKey key) with
    | none => simp [applyExpire, hst]
    | some e0 => simp [applyExpire, hst, lookupKey_setKey_self]

/-- The claim as stated is false on the code: here the primary key exists with
no expiry, the batch succeeds, the out-of-band `expire` repair is issued and
fails, yet the trace carries no log line at all — the failure is silently
ignored, not logged. -/
theorem expire_failure_not_logged_cx :
    Event.expireCmd (realKey "a") 60 ∈
      (incrementErrors "a" 60 [(realKey "a", ⟨3, none⟩)] none
        (some ⟨"Error", "boom"⟩) [Event.nextCall (some 0)]).1 ∧
    ((incrementErrors "a" 60 [(realKey "a", ⟨3, none⟩)] none
        (some ⟨"Error", "boom"⟩) [Event.nextCall (some 0)]).1.filter
      isConsoleError) = [] ∧
    ((incrementErrors "a" 60 [(realKey "a", ⟨3, none⟩)] none
        (some ⟨"Error", "boom"⟩) [Event.nextCall (some 0)]).1.filter
      isLogLine) = [] := by
  refine ⟨?_, ?_, ?_⟩ <;> decide

/-- A JavaScript option value as the setup-time validators see it: a function
(identified by a name), a string, a boolean, a number, or `null`/`undefined`
passed explicitly for a present key. -/
inductive JsVal where
  | vfunc (name : String)
  | vstr (s : String)
  | vbool (b : Bool)
  | vnum (n : Int)
  | vnull
deriving DecidableEq, Repr

/-- Test for `typeof v` being the function type. -/
def isFunc : JsVal → Bool
  | .vfunc _ => true
  | _ => false

/-- Test for `typeof v` being the string type. -/
def isStr : JsVal → Bool
  | .vstr _ => true
  | _ => false

/-- Test for `typeof v` being the boolean type. -/
def isBool : JsVal → Bool
  | .vbool _ => true
  | _ => false

/-- Rendering of a value into the descriptive assertion message. -/
def jsToString : JsVal → String
  | .vfunc n => n
  | .vstr s => s
  | .vbool b => if b then "true" else "false"
  | .vnum n => toString n
  | .vnull => "null"

/-- The handler-exceptions options bag as passed by the caller; `none` models
an absent key (`hasOwnProperty` false), `some .vnull` an explicit
`null`/`undefined` (both satisfy `opts[key] == null`). -/
structure HandlerExceptionsOpts where
  errorMatcher : Option JsVal := none
  errorMessage : Option JsVal := none
  shouldRateLimit : Option JsVal := none
  logger : Option JsVal := none

/-- The canonical options produced by `handlerExceptionsOptsCanonical`. -/
structure CanonicalOpts where
  errorMatcher : JsVal
  errorMessage : JsVal
  shouldRateLimit : JsVal
  logger : JsVal
deriving DecidableEq, Repr

/-- Defaults table `defaultHandlerExceptionsOpts` from the source: the match-all predicate
`alwaysTrue`, the message `"Too Many Errors"`, blocking mode on, and
`console.log` as the logger. -/
def defaultHandlerExceptionsOpts : CanonicalOpts :=
  ⟨.vfunc "alwaysTrue", .vstr "Too Many Errors", .vbool true,
   .vfunc "console.log"⟩

/-- Validator `validators.errorMatcher` from the source. -/
def validateErrorMatcher (v : JsVal) : Except String Unit :=
  if isFunc v then .ok ()
  else .error ("Invalid error matcher: " ++ jsToString v)

/-- Validator `validators.errorMessage` from the source. -/
def validateErrorMessage (v : JsVal) : Except String Unit :=
  if isStr v then .ok ()
  else .error ("Invalid error message: " ++ jsToString v)

/-- Validator `validators.shouldRateLimit` from the source. -/
def validateShouldRateLimit (v : JsVal) : Except String Unit :=
  if isBool v then .ok ()
  else .error ("Invalid shouldRateLimit: " ++ jsToString v)

/-- Validator `validators.logger` from the source: a function, or literally `false`. -/
def validateLogger (v : JsVal) : Except String Unit :=
  if isFunc v || (v == .vbool false) then .ok ()
  else .error ("Invalid logger: " ++ jsToString v)

/-- One key of the canonicalization loop: a present, non-null value is
validated and kept; an absent or null value falls back to the default,
unvalidated. -/
def pickOpt (field : Option JsVal) (validate : JsVal → Except String Unit)
    (dflt : JsVal) : Except String JsVal :=
  match field with
  | some v =>
      if v = .vnull then .ok dflt
      else match validate v with
           | .error m => .error m
           | .ok _ => .ok v
  | none => .ok dflt

/-- Embedding of `handlerExceptionsOptsCanonical` from the source: first the special case
rewriting `logger: false` into a no-op function, then the per-key loop over
the default table. -/
def handlerExceptionsOptsCanonical (opts : HandlerExceptionsOpts) :
    Except String CanonicalOpts :=
  let opts := if opts.logger = some (.vbool false) then
      { opts with logger := some (.vfunc "noop") }
    else opts
  match pickOpt opts.errorMatcher validateErrorMatcher
      defaultHandlerExceptionsOpts.errorMatcher with
  | .error m => .error m
  | .ok em =>
    match pickOpt opts.errorMessage validateErrorMessage
        defaultHandlerExceptionsOpts.errorMessage with
    | .error m => .error m
    | .ok ems =>
      match pickOpt opts.shouldRateLimit validateShouldRateLimit
          defaultHandlerExceptionsOpts.shouldRateLimit with
      | .error m => .error m
      | .ok srl =>
        match pickOpt opts.logger validateLogger
            defaultHandlerExceptionsOpts.logger with
        | .error m => .error m
        | .ok lg => .ok ⟨em, ems, srl, lg⟩

/-- The setup path of `module.exports`: canonicalize the options, then assert
the handler is a function — all before the request handler is ever built, so
every violation fails synchronously at setup time. -/
def handlerExceptionsSetup (opts : HandlerExceptionsOpts) (handler : JsVal) :
    Except String CanonicalOpts :=
  match handlerExceptionsOptsCanonical opts with
  | .error m => .error m
  | .ok c =>
      if isFunc handler then .ok c
      else .error ("Invalid handler: " ++ jsToString handler)

/-- C9: invalid option values — a non-function `errorMatcher`, a non-string
`errorMessage`, a non-boolean `shouldRateLimit`, a `logger` that is neither a
function nor `false`, or a non-function handler — make the setup call itself
return a descriptive failure; omitted or null options take their defaults
(match-all matcher, "Too Many Errors", blocking mode on, `console.log`), and
`logger: false` is canonicalized to a no-op function. -/
theorem config_validation :
    (∀ v : JsVal, isFunc v = false → v ≠ .vnull →
      ∃ m, handlerExceptionsSetup { errorMatcher := some v }
        (.vfunc "handler") = .error m) ∧
    (∀ v : JsVal, isStr v = false → v ≠ .vnull →
      ∃ m, handlerExceptionsSetup { errorMessage := some v }
        (.vfunc "handler") = .error m) ∧
    (∀ v : JsVal, isBool v = false → v ≠ .vnull →
      ∃ m, handlerExceptionsSetup { shouldRateLimit := some v }
        (.vfunc "handler") = .error m) ∧
    (∀ v : JsVal, isFunc v = false → v ≠ .vbool false → v ≠ .vnull →
      ∃ m, handlerExceptionsSetup { logger := some v }
        (.vfunc "handler") = .error m) ∧
    (∀ v : JsVal, isFunc v = false →
      ∃ m, handlerExceptionsSetup {} v = .error m) ∧
    handlerExceptionsSetup {} (.vfunc "handler") =
      .ok defaultHandlerExceptionsOpts ∧
    handlerExceptionsSetup
        ⟨some .vnull, some .vnull, some .vnull, some .vnull⟩
        (.vfunc "handler") = .ok defaultHandlerExceptionsOpts ∧
    handlerExceptionsSetup { logger := some (.vbool false) }
        (.vfunc "handler") =
      .ok ⟨.vfunc "alwaysTrue", .vstr "Too Many Errors", .vbool true,
           .vfunc "noop"⟩ := by
  refine ⟨?_, ?_, ?_, ?_, ?_, rfl, rfl, rfl⟩
  · intro v h1 h2
    cases v with
    | vfunc n => simp [isFunc] at h1
    | vnull => exact absurd rfl h2
    | vstr s => exact ⟨_, rfl⟩
    | vbool b => exact ⟨_, rfl⟩
    | vnum n => exact ⟨_, rfl⟩
  · intro v h1 h2
    cases v with
    | vstr s => simp [isStr] at h1
    | vnull => exact absurd rfl h2
    | vfunc n => exact ⟨_, rfl⟩
    | vbool b => exact ⟨_, rfl⟩
    | vnum n => exact ⟨_, rfl⟩
  · intro v h1 h2
    cases v with
    | vbool b => simp [isBool] at h1
    | vnull => exact absurd rfl h2
    | vfunc n => exact ⟨_, rfl⟩
    | vstr s => exact ⟨_, rfl⟩
    | vnum n => exact ⟨_, rfl⟩
  · intro v h1 h2 h3
    cases v with
    | vfunc n => simp [isFunc] at h1
    | vnull => exact absurd rfl h3
    | vstr s => exact ⟨_, rfl⟩
    | vbool b =>
        cases b with
        | false => exact absurd rfl h2
        | true => exact ⟨_, rfl⟩
    | vnum n => exact ⟨_, rfl⟩
  · intro v h1
    cases v with
    | vfunc n => simp [isFunc] at h1
    | vnull => exact ⟨_, rfl⟩
    | vstr s => exact ⟨_, rfl⟩
    | vbool b => exact ⟨_, rfl⟩
    | vnum n => exact ⟨_, rfl⟩

end HandlerExceptions
